import Mathlib

/-
Verification development for the Multi-Zip-Reader library
(src/MultiZipReader.ts).  The definitions below are a shallow embedding of
the TypeScript source: Node `Buffer`s become the `Buf` structure (a byte
function together with a length, little-endian reads spelled out), the
JS object used as the entry map becomes an association list with
JS-object insertion semantics (overwrite keeps the original position),
thrown errors become `Except`/explicitly returned error values, and file
descriptors / external effects (cache write, fd.read outcomes) are passed
in explicitly.  Machine integers are `Nat`; all reads produced by the code
are bounded (readUInt32LE < 2^32 etc.) by construction of `Buf.byteAt`.
-/

set_option autoImplicit false

namespace MultiZipReader

/-- A Node `Buffer`: a byte-valued function together with a length.
Out-of-range accesses yield 0, matching `Buffer.alloc` zero-fill for the
partially filled buffers the scanner uses. -/
structure Buf where
  f : Nat → Nat
  len : Nat

/-- Byte at index `i` (0 outside the buffer, reduced mod 256 inside). -/
def Buf.byteAt (b : Buf) (i : Nat) : Nat :=
  if i < b.len then b.f i % 256 else 0

/-- `buffer.readUInt16LE(i)`. -/
def Buf.readUInt16LE (b : Buf) (i : Nat) : Nat :=
  b.byteAt i + 256 * b.byteAt (i + 1)

/-- `buffer.readUInt32LE(i)`. -/
def Buf.readUInt32LE (b : Buf) (i : Nat) : Nat :=
  b.byteAt i + 256 * b.byteAt (i + 1) + 65536 * b.byteAt (i + 2) +
    16777216 * b.byteAt (i + 3)

/-- `buffer.readBigUInt64LE(i)` (the code converts the result with
`Number(...)`; the values exercised are far below 2^53 so the conversion
is exact). -/
def Buf.readUInt64LE (b : Buf) (i : Nat) : Nat :=
  b.readUInt32LE i + 4294967296 * b.readUInt32LE (i + 4)

/-- `Buffer.concat([a, b])`. -/
def Buf.concat (a b : Buf) : Buf :=
  ⟨fun i => if i < a.len then a.byteAt i else b.byteAt (i - a.len), a.len + b.len⟩

/-- `buffer.subarray(start)`; like Node, a start beyond the end clamps to
an empty buffer (`Nat` subtraction). -/
def Buf.subarray (b : Buf) (start : Nat) : Buf :=
  ⟨fun i => b.byteAt (start + i), b.len - start⟩

/-- The result of `fd.read(dest, 0, len, start)` into a zero-filled
buffer of size `len`: bytes of the file from `start`, zero past EOF. -/
def Buf.slice (b : Buf) (start len : Nat) : Buf :=
  ⟨fun i => b.byteAt (start + i), len⟩

/-- `buffer.toString('utf8', start, start + len)` kept as the raw byte
sequence (entry names are compared by exact bytes, which is what JS
string keys give for the inputs involved). -/
def Buf.bytesFrom (b : Buf) (start len : Nat) : List Nat :=
  (List.range len).map (fun k => b.byteAt (start + k))

/-- Build a buffer from a literal byte list. -/
def Buf.ofList (l : List Nat) : Buf :=
  ⟨fun i => l.getD i 0, l.length⟩

/-- `ArchiveDataFile` from the source: the per-entry record stored in the
index (central-directory crc32, local-header offset, stored length). -/
structure ArchiveDataFile where
  crc32 : Nat
  fileHeaderOffset : Nat
  length : Nat
  deriving DecidableEq, Repr

/-- The entry map: a JS object keyed by entry-name bytes. -/
abbrev EntryMap := List (List Nat × ArchiveDataFile)

/-- JS object property write `data[name] = v`: overwrite keeps the key at
its original insertion position; a fresh key is appended. -/
def setEntry (m : EntryMap) (k : List Nat) (v : ArchiveDataFile) : EntryMap :=
  match m with
  | [] => [(k, v)]
  | (k0, v0) :: rest =>
    if k0 = k then (k, v) :: rest else (k0, v0) :: setEntry rest k v

/-- JS object property read `data[name]`. -/
def getEntry (m : EntryMap) (k : List Nat) : Option ArchiveDataFile :=
  match m with
  | [] => none
  | (k0, v0) :: rest => if k0 = k then some v0 else getEntry rest k

/-- `ArchiveDataSource` from the source (paths kept as byte lists,
compared exactly as JS compares strings with `===`). -/
structure ArchiveDataSource where
  mzrVersion : Nat
  path : List Nat
  size : Nat
  data : EntryMap
  deriving DecidableEq, Repr

/-- `ZipDataOffset` from the source: the resolved data window. -/
structure ZipDataOffset where
  filePath : List Nat
  crc32 : Nat
  offset : Nat
  compressionMethod : Nat
  compressedLength : Nat
  length : Nat
  deriving DecidableEq, Repr

/-- The errors the source throws, one constructor per distinct `throw`
site (plus `ioError` for a rejected `fd.read` and `cacheWriteFailed` for
a rejected cache write, which propagate as-is). -/
inductive MzrError where
  | archiveAlreadyLoaded
  | invalidZip
  | invalidZip64
  | badFileHeaderSignature (sig : Nat)
  | enoent
  | didNotReadWholeLength
  | crc32Mismatch
  | cacheWriteFailed
  | ioError
  deriving DecidableEq, Repr

/-- `CUR_VERSION` from the source. -/
def CUR_VERSION : Nat := 0

/-- One step of the CRC-32 bit loop (reflected polynomial 0xEDB88320),
as computed by the `crc32` collaborator from node:zlib. -/
def crc32Step (c : Nat) : Nat :=
  if c % 2 = 1 then Nat.xor (c / 2) 3988292384 else c / 2

/-- CRC-32 update by one byte. -/
def crc32Byte (c b : Nat) : Nat :=
  crc32Step (crc32Step (crc32Step (crc32Step (crc32Step (crc32Step
    (crc32Step (crc32Step (Nat.xor c (b % 256)))))))))

/-- `crc32(buffer)` from node:zlib (IEEE CRC-32 of the whole buffer). -/
def crc32 (data : List Nat) : Nat :=
  Nat.xor (data.foldl crc32Byte 4294967295) 4294967295

/-- The inner record loop of the ZIP64 chunked central-directory path
(loadArchive, lines 153-205): parses as many records as fit into
`cdBuffer` starting at `pos`, carrying the JS mutable `recordSize`.
Returns the updated entry map together with the final `pos` and
`recordSize` (used by the caller to build the carry-over buffer).
`fuel` bounds the iteration count; every call site passes more fuel than
the loop can consume (each iteration advances `pos` by at least 46). -/
def cd64Loop : Nat → Buf → Nat → Nat → EntryMap →
    Except MzrError (EntryMap × Nat × Nat)
  | 0, _, pos, recordSize, data => .ok (data, pos, recordSize)
  | fuel + 1, cdBuffer, pos, recordSize, data =>
    if pos + 46 ≤ cdBuffer.len then
      if cdBuffer.readUInt32LE pos ≠ 0x02014b50 then
        .error (.badFileHeaderSignature (cdBuffer.readUInt32LE pos))
      else
        let crc32v := cdBuffer.readUInt32LE (pos + 16)
        let nameLength := cdBuffer.readUInt16LE (pos + 28)
        let extraFieldLength := cdBuffer.readUInt16LE (pos + 30)
        let fileCommentLength := cdBuffer.readUInt16LE (pos + 32)
        let extAttributes := cdBuffer.readUInt16LE (pos + 38)
        if Nat.land extAttributes 0x10 ≠ 0 ∨
            Nat.land (extAttributes >>> 16) 0o040000 ≠ 0 then
          -- is directory, skip (note: no completeness check on this path)
          let recordSize1 := 46 + nameLength + extraFieldLength + fileCommentLength
          cd64Loop fuel cdBuffer (pos + recordSize1) recordSize1 data
        else
          let recordSize1 := 46 + nameLength + extraFieldLength + fileCommentLength
          if pos + recordSize1 > cdBuffer.len then
            -- incomplete record: break, leaving pos at the record start
            .ok (data, pos, recordSize1)
          else
            let uncompressedLength := cdBuffer.readUInt32LE (pos + 20)
            let length0 := cdBuffer.readUInt32LE (pos + 24)
            let fileHeaderOffset0 := cdBuffer.readUInt32LE (pos + 42)
            let zip64Pos0 := 4
            let p1 :=
              if uncompressedLength = 0xffffffff then
                (cdBuffer.readUInt64LE (pos + 46 + nameLength + zip64Pos0),
                  zip64Pos0 + 8)
              else (uncompressedLength, zip64Pos0)
            let p2 :=
              if length0 = 0xffffffff then
                (cdBuffer.readUInt64LE (pos + 46 + nameLength + p1.2), p1.2 + 8)
              else (length0, p1.2)
            let fileHeaderOffset :=
              if fileHeaderOffset0 = 0xffffffff then
                cdBuffer.readUInt64LE (pos + 46 + nameLength + p2.2)
              else fileHeaderOffset0
            let fileName := cdBuffer.bytesFrom (pos + 46) nameLength
            let data1 := setEntry data fileName ⟨crc32v, fileHeaderOffset, p2.1⟩
            cd64Loop fuel cdBuffer (pos + recordSize1) recordSize1 data1
    else .ok (data, pos, recordSize)

/-- The outer 64 KiB chunk loop of the ZIP64 path (loadArchive, lines
135-213): reads the central directory in chunks of at most 65536 bytes
from `file` starting at `centralDir64Offset`, concatenating each new
chunk onto the carry-over `remainingBuffer` before record parsing. -/
def cd64ChunkLoop : Nat → Buf → Nat → Nat → Nat → Buf → EntryMap →
    Except MzrError EntryMap
  | 0, _, _, _, _, _, data => .ok data
  | fuel + 1, file, centralDir64Size, centralDir64Offset, processedBytes,
      remainingBuffer, data =>
    if processedBytes < centralDir64Size then
      let bytesLeft := centralDir64Size - processedBytes
      let readSize := if bytesLeft > 65536 then 65536 else bytesLeft
      let newChunk := file.slice (centralDir64Offset + processedBytes) readSize
      let cdBuffer := remainingBuffer.concat newChunk
      match cd64Loop (cdBuffer.len + 1) cdBuffer 0 0 data with
      | .error e => .error e
      | .ok (data1, pos, recordSize) =>
        let remaining1 :=
          if pos + 46 > cdBuffer.len ∨ pos + recordSize > cdBuffer.len then
            cdBuffer.subarray pos
          else Buf.ofList []
        cd64ChunkLoop fuel file centralDir64Size centralDir64Offset
          (processedBytes + readSize) remaining1 data1
    else .ok data

/-- The non-chunked central-directory loop (loadArchive, lines 219-247):
the whole directory is in `cdBuffer`; note this path performs no ZIP64
extra-field overrides and no record-completeness check. -/
def cdLoop : Nat → Buf → Nat → EntryMap → Except MzrError EntryMap
  | 0, _, _, data => .ok data
  | fuel + 1, cdBuffer, pos, data =>
    if pos + 46 ≤ cdBuffer.len then
      if cdBuffer.readUInt32LE pos ≠ 0x02014b50 then
        .error (.badFileHeaderSignature (cdBuffer.readUInt32LE pos))
      else
        let nameLength := cdBuffer.readUInt16LE (pos + 28)
        let extraFieldLength := cdBuffer.readUInt16LE (pos + 30)
        let fileCommentLength := cdBuffer.readUInt16LE (pos + 32)
        let extAttributes := cdBuffer.readUInt16LE (pos + 38)
        if Nat.land extAttributes 0x10 ≠ 0 ∨
            Nat.land (extAttributes >>> 16) 0o040000 ≠ 0 then
          cdLoop fuel cdBuffer
            (pos + (46 + nameLength + extraFieldLength + fileCommentLength)) data
        else
          let crc32v := cdBuffer.readUInt32LE (pos + 16)
          let length0 := cdBuffer.readUInt32LE (pos + 24)
          let fileHeaderOffset := cdBuffer.readUInt32LE (pos + 42)
          let fileName := cdBuffer.bytesFrom (pos + 46) nameLength
          cdLoop fuel cdBuffer
            (pos + (46 + nameLength + extraFieldLength + fileCommentLength))
            (setEntry data fileName ⟨crc32v, fileHeaderOffset, length0⟩)
    else .ok data

/-- ZIP64 chunked parsing of a central directory given directly as a byte
buffer (the loadArchive ZIP64 branch with the directory at offset 0 and
size equal to the buffer length). -/
def parseCD64 (cd : Buf) : Except MzrError EntryMap :=
  cd64ChunkLoop (cd.len + 1) cd cd.len 0 0 (Buf.ofList []) []

/-- Non-chunked parsing of the same central-directory bytes. -/
def parseCD (cd : Buf) : Except MzrError EntryMap :=
  cdLoop (cd.len + 1) cd 0 []

/-- The backward signature scan `for (i = buffer.length - 4; i >= 0; i--)`
(loadArchive, lines 95-101 and 116-122), started at `i`. -/
def findSigFrom (buffer : Buf) (sig : Nat) : Nat → Option Nat
  | 0 => if buffer.readUInt32LE 0 = sig then some 0 else none
  | i + 1 =>
    if buffer.readUInt32LE (i + 1) = sig then some (i + 1)
    else findSigFrom buffer sig i

/-- The scanning part of `loadArchive` (lines 59-249, minus the registry
and cache concerns): locate the EOCD (and EOCD64) in the 1024-byte tail
buffer, then parse the central directory through the ZIP64 chunked path
or the non-chunked path. -/
def scanArchive (filePath : List Nat) (file : Buf) :
    Except MzrError ArchiveDataSource :=
  let fileSize := file.len
  let readSize := min 1024 fileSize
  -- Buffer.alloc(1024) filled with the file tail; zeros past readSize
  let buffer : Buf :=
    ⟨fun i => if i < readSize then file.byteAt (fileSize - readSize + i) else 0,
      1024⟩
  match findSigFrom buffer 0x06054b50 (buffer.len - 4) with
  | none => .error .invalidZip
  | some i =>
    let eocdPos := fileSize - readSize + i
    let eocdBuffer := file.slice eocdPos 22
    let centralDirOffset := eocdBuffer.readUInt32LE 16
    let centralDirSize := eocdBuffer.readUInt32LE 12
    if centralDirOffset = 0xffffffff then
      match findSigFrom buffer 0x06064b50 (buffer.len - 4) with
      | none => .error .invalidZip64
      | some j =>
        let eocd64Pos := fileSize - readSize + j
        let eocd64Buffer := file.slice eocd64Pos 56
        let centralDir64Size := eocd64Buffer.readUInt64LE 40
        let centralDir64Offset := eocd64Buffer.readUInt64LE 48
        match cd64ChunkLoop (centralDir64Size + 1) file centralDir64Size
            centralDir64Offset 0 (Buf.ofList []) [] with
        | .error e => .error e
        | .ok data => .ok ⟨CUR_VERSION, filePath, fileSize, data⟩
    else
      let cdBuffer := file.slice centralDirOffset centralDirSize
      match cdLoop (cdBuffer.len + 1) cdBuffer 0 [] with
      | .error e => .error e
      | .ok data => .ok ⟨CUR_VERSION, filePath, fileSize, data⟩

/-- Outcomes of the external effects a single `loadArchive` call touches:
the archive file's content, the result of reading + deserializing the
sidecar cache file, and the result of writing it. -/
structure LoadEnv where
  file : Buf
  cacheLoad : Except Unit ArchiveDataSource
  cacheWrite : Except Unit Unit

/-- `loadArchive(filePath, cache)` (lines 47-259) as a function of the
registry's current `sources` list and the external-effect outcomes.
Returns the call's result together with the registry's `sources` list
after the call (the source throws at various points; the second component
records the state at the moment of the throw). -/
def loadArchive (sources : List ArchiveDataSource) (filePath : List Nat)
    (cache : Bool) (env : LoadEnv) :
    Except MzrError ArchiveDataSource × List ArchiveDataSource :=
  if sources.any (fun s => s.path = filePath) then
    (.error .archiveAlreadyLoaded, sources)
  else
    let fileSize := env.file.len
    let cacheHit : Option ArchiveDataSource :=
      if cache then
        match env.cacheLoad with
        | .ok cached =>
          if cached.size = fileSize ∧ cached.mzrVersion = CUR_VERSION then
            some cached
          else none
        | .error _ => none  -- could not read cache, just carry on
      else none
    match cacheHit with
    | some cached => (.ok cached, sources ++ [cached])
    | none =>
      match scanArchive filePath env.file with
      | .error e => (.error e, sources)
      | .ok archive =>
        let sources1 := sources ++ [archive]
        if cache then
          match env.cacheWrite with
          | .error _ => (.error .cacheWriteFailed, sources1)
          | .ok _ => (.ok archive, sources1)
        else (.ok archive, sources1)

/-- The source-lookup loop of `getZipDataOffset` (lines 335-343): first
loaded source whose entry map contains the name. -/
def findFileInfo (sources : List ArchiveDataSource) (filePath : List Nat) :
    Option (ArchiveDataFile × ArchiveDataSource) :=
  match sources with
  | [] => none
  | s :: rest =>
    match getEntry s.data filePath with
    | some fi => some (fi, s)
    | none => findFileInfo rest filePath

/-- `getZipDataOffset(filePath)` (lines 334-402): resolve a name to a
data window, re-reading the owning archive's local file header.  `fs`
maps an archive path to that file's bytes. -/
def getZipDataOffset (fs : List Nat → Buf) (sources : List ArchiveDataSource)
    (filePath : List Nat) : Option ZipDataOffset :=
  match findFileInfo sources filePath with
  | none => none
  | some (fileInfo, source) =>
    if fileInfo.length = 0 then
      some ⟨source.path, fileInfo.crc32, 0, 0, 0, 0⟩
    else
      let file := fs source.path
      let lfhBuffer := file.slice fileInfo.fileHeaderOffset 30
      let compressionMethod := lfhBuffer.readUInt16LE 8
      let compressedLength0 := lfhBuffer.readUInt32LE 18
      let length0 := lfhBuffer.readUInt32LE 22
      let nameLength := lfhBuffer.readUInt16LE 26
      let extraFieldLength := lfhBuffer.readUInt16LE 28
      let lens :=
        if length0 = 0xffffffff ∨ compressedLength0 = 0xffffffff then
          let zip64Buffer :=
            file.slice (fileInfo.fileHeaderOffset + 30 + nameLength)
              extraFieldLength
          let p1 :=
            if length0 = 0xffffffff then
              (zip64Buffer.readUInt64LE 4, 4 + 8)
            else (length0, 4)
          let compressedLength1 :=
            if compressedLength0 = 0xffffffff then
              zip64Buffer.readUInt64LE p1.2
            else compressedLength0
          (p1.1, compressedLength1)
        else (length0, compressedLength0)
      let trueOffset := fileInfo.fileHeaderOffset + 30 + nameLength +
        extraFieldLength
      some ⟨source.path, fileInfo.crc32, trueOffset, compressionMethod,
        lens.2, lens.1⟩

/-- `getZipDataOffset` with the file-descriptor lifecycle made explicit:
`readLfhOk` and `readZip64Ok` are the outcomes of the two `fd.read`
calls (lines 362 and 373); the boolean output records whether the
`fd.close()` on line 388 was reached before the function returned.  A
rejected read propagates as `ioError` from the point of the `await`. -/
def getZipDataOffsetTraced (fs : List Nat → Buf)
    (readLfhOk readZip64Ok : Bool) (sources : List ArchiveDataSource)
    (filePath : List Nat) :
    Except MzrError (Option ZipDataOffset) × Bool :=
  match findFileInfo sources filePath with
  | none => (.ok none, true)
  | some (fileInfo, source) =>
    if fileInfo.length = 0 then
      (.ok (some ⟨source.path, fileInfo.crc32, 0, 0, 0, 0⟩), true)
    else
      -- fd opened here
      if readLfhOk = false then (.error .ioError, false)
      else
        let file := fs source.path
        let lfhBuffer := file.slice fileInfo.fileHeaderOffset 30
        let compressionMethod := lfhBuffer.readUInt16LE 8
        let compressedLength0 := lfhBuffer.readUInt32LE 18
        let length0 := lfhBuffer.readUInt32LE 22
        let nameLength := lfhBuffer.readUInt16LE 26
        let extraFieldLength := lfhBuffer.readUInt16LE 28
        if length0 = 0xffffffff ∨ compressedLength0 = 0xffffffff then
          if readZip64Ok = false then (.error .ioError, false)
          else
            let zip64Buffer :=
              file.slice (fileInfo.fileHeaderOffset + 30 + nameLength)
                extraFieldLength
            let p1 :=
              if length0 = 0xffffffff then
                (zip64Buffer.readUInt64LE 4, 4 + 8)
              else (length0, 4)
            let compressedLength1 :=
              if compressedLength0 = 0xffffffff then
                zip64Buffer.readUInt64LE p1.2
              else compressedLength0
            let trueOffset := fileInfo.fileHeaderOffset + 30 + nameLength +
              extraFieldLength
            (.ok (some ⟨source.path, fileInfo.crc32, trueOffset,
              compressionMethod, compressedLength1, p1.1⟩), true)
        else
          let trueOffset := fileInfo.fileHeaderOffset + 30 + nameLength +
            extraFieldLength
          (.ok (some ⟨source.path, fileInfo.crc32, trueOffset,
            compressionMethod, compressedLength0, length0⟩), true)

/-- The stream `_createStreamFromOffset` builds (lines 266-285): a
bounded byte-range read over the archive file, either returned raw or
piped through `createInflateRaw`.  `endIncl` is the inclusive end index
`offset + compressedLength - 1` passed to `createReadStream`. -/
inductive StreamSpec where
  | raw (filePath : List Nat) (start endIncl : Nat)
  | inflateRaw (filePath : List Nat) (start endIncl : Nat)
  deriving DecidableEq, Repr

/-- `_createStreamFromOffset(zipDataOffset)` (lines 266-285).  Note that
every compression method other than 8 falls through to the raw branch
(the code comment reads "Store, pipe back raw data"); there is no
unsupported-method error in the source. -/
def createStreamFromOffset (z : ZipDataOffset) : Option StreamSpec :=
  if z.length = 0 then none
  else if z.compressionMethod = 8 then
    some (.inflateRaw z.filePath z.offset (z.offset + z.compressedLength - 1))
  else
    some (.raw z.filePath z.offset (z.offset + z.compressedLength - 1))

/-- Draining a stream into one buffer (`readFile`'s chunk collection,
lines 298-307): the bounded range of the archive file, run through the
external raw-inflate decoder when the stream is the inflate pipe. -/
def drainStream (inflate : List Nat → List Nat) (fs : List Nat → Buf) :
    StreamSpec → List Nat
  | .raw p s e => (fs p).bytesFrom s (e + 1 - s)
  | .inflateRaw p s e => inflate ((fs p).bytesFrom s (e + 1 - s))

/-- The end-of-stream verification in `readFile` (lines 309-319): length
check against the window, then CRC-32 check, then the buffer is
delivered. -/
def readFileFinish (z : ZipDataOffset) (buffer : List Nat) :
    Except MzrError (List Nat) :=
  if buffer.length ≠ z.length then .error .didNotReadWholeLength
  else if crc32 buffer ≠ z.crc32 then .error .crc32Mismatch
  else .ok buffer

/-- `readFile(filePath)` (lines 287-323): resolve the window, open the
stream (`none` for empty entries, surfaced as a `null` buffer), drain
it and verify.  `inflate` is the external raw-Deflate decoder. -/
def readFile (inflate : List Nat → List Nat) (fs : List Nat → Buf)
    (sources : List ArchiveDataSource) (filePath : List Nat) :
    Except MzrError (Option (List Nat)) :=
  match getZipDataOffset fs sources filePath with
  | none => .error .enoent
  | some z =>
    match createStreamFromOffset z with
    | none => .ok none
    | some spec => (readFileFinish z (drainStream inflate fs spec)).map some

/-! Concrete fixtures used by the witnesses and counterexamples below.
Byte buffers are given as sparse functions (unlisted indices are 0). -/

/-- A central-directory record whose nominal compressed size (offset 20)
and nominal uncompressed size (offset 24) are both the 0xFFFFFFFF
sentinel.  Name length 1 (name is the byte 98), extra field of 20 bytes
(4-byte ZIP64 header, then the 8-byte slots 100 and 200), local header
offset 50, crc32 5. -/
def bothSizesSentinelRecord : Buf :=
  ⟨fun i =>
    if i = 0 then 0x50 else if i = 1 then 0x4b
    else if i = 2 then 1 else if i = 3 then 2
    else if i = 16 then 5
    else if 20 ≤ i ∧ i < 28 then 255
    else if i = 28 then 1
    else if i = 30 then 20
    else if i = 42 then 50
    else if i = 46 then 98
    else if i = 47 then 1 else if i = 49 then 16
    else if i = 51 then 100
    else if i = 59 then 200
    else 0, 67⟩

/-- A central-directory record with only the local-header-offset field
(offset 42) at the 0xFFFFFFFF sentinel; its ZIP64 extra field's first
8-byte slot holds 77.  Nominal uncompressed size 9, crc32 5. -/
def offsetOnlySentinelRecord : Buf :=
  ⟨fun i =>
    if i = 0 then 0x50 else if i = 1 then 0x4b
    else if i = 2 then 1 else if i = 3 then 2
    else if i = 16 then 5
    else if i = 24 then 9
    else if i = 28 then 1
    else if i = 30 then 12
    else if 42 ≤ i ∧ i < 46 then 255
    else if i = 46 then 98
    else if i = 47 then 1 else if i = 49 then 8
    else if i = 51 then 77
    else 0, 59⟩

/-- A central directory whose first record is a directory record (DOS
directory flag 0x10 at byte 38) with a 65535-byte comment, so its record
size 46 + 65535 = 65581 straddles the 64 KiB chunk boundary; a 47-byte
file record (name byte 97, crc32 7, uncompressed size 5, offset 9)
follows at 65581.  Total length 65628. -/
def straddlingDirectoryCD : Buf :=
  ⟨fun i =>
    if i = 0 then 0x50 else if i = 1 then 0x4b
    else if i = 2 then 1 else if i = 3 then 2
    else if i = 32 then 255 else if i = 33 then 255
    else if i = 38 then 0x10
    else if i = 65581 then 0x50 else if i = 65582 then 0x4b
    else if i = 65583 then 1 else if i = 65584 then 2
    else if i = 65597 then 7
    else if i = 65605 then 5
    else if i = 65609 then 1
    else if i = 65623 then 9
    else if i = 65627 then 97
    else 0, 65628⟩

/-- A central-directory record (name byte 99, crc32 6, uncompressed size
4, offset 13) whose 32-bit external-attributes field is 0x40000000: the
Unix directory bit 0o040000 in the high 16 bits, low 16 bits zero. -/
def unixDirBitRecord : Buf :=
  ⟨fun i =>
    if i = 0 then 0x50 else if i = 1 then 0x4b
    else if i = 2 then 1 else if i = 3 then 2
    else if i = 16 then 6
    else if i = 24 then 4
    else if i = 28 then 1
    else if i = 41 then 0x40
    else if i = 42 then 13
    else if i = 46 then 99
    else 0, 47⟩

/-- The same record with the DOS directory flag 0x10 set in the low byte
of the external attributes instead. -/
def dosDirFlagRecord : Buf :=
  ⟨fun i => if i = 38 then 0x10 else
    if i = 41 then 0 else unixDirBitRecord.f i, 47⟩

/-- A minimal valid ZIP file: a lone 22-byte end-of-central-directory
record with zero entries (central directory offset 0, size 0). -/
def eocdOnlyZip : Buf := Buf.ofList
  [0x50, 0x4b, 5, 6, 0, 0, 0, 0, 0, 0, 0, 0, 0, 0, 0, 0, 0, 0, 0, 0, 0, 0]

/-- Load environment for `eocdOnlyZip` in which both the cache read and
the cache write fail. -/
def cacheWriteFailEnv : LoadEnv := ⟨eocdOnlyZip, .error (), .error ()⟩

/-- An archive file holding one Store-compressed entry: local file header
at offset 0 (compressed size 3, uncompressed size 3, name length 1, name
byte 97), followed by the 3-byte payload 1, 2, 3 at offset 31. -/
def storeArchiveFile : Buf := Buf.ofList
  [0x50, 0x4b, 3, 4, 0, 0, 0, 0, 0, 0, 0, 0, 0, 0, 0, 0, 0, 0,
   3, 0, 0, 0,
   3, 0, 0, 0,
   1, 0,
   0, 0,
   97,
   1, 2, 3]

/-- An archive source (path byte 122) whose entry for the name byte 97
records crc32 1438416925 (the CRC-32 of the payload 1, 2, 3), local
header offset 0, and an (inconsistent) uncompressed length of 5, while
the local file header in `storeArchiveFile` says 3. -/
def inconsistentSource : ArchiveDataSource :=
  ⟨0, [122], 34, [([97], ⟨1438416925, 0, 5⟩)]⟩

/-- An archive source whose entry for the name byte 97 has recorded
length 0 (an empty file), crc32 3, local header offset 11. -/
def emptyEntrySource : ArchiveDataSource :=
  ⟨0, [122], 34, [([97], ⟨3, 11, 0⟩)]⟩

/-- A file system with `storeArchiveFile` at path byte 122. -/
def oneArchiveFs : List Nat → Buf :=
  fun p => if p = [122] then storeArchiveFile else Buf.ofList []

/-- The data window `getZipDataOffset` resolves for the name byte 97 in
`inconsistentSource` over `oneArchiveFs`. -/
def inconsistentWindow : ZipDataOffset := ⟨[122], 1438416925, 31, 0, 3, 3⟩

/-- Archive source A (path byte 65) with an entry for the name byte
120. -/
def sourceA : ArchiveDataSource := ⟨0, [65], 10, [([120], ⟨1, 2, 3⟩)]⟩

/-- Archive source B (path byte 66), loaded after A, with a different
entry for the same name byte 120. -/
def sourceB : ArchiveDataSource := ⟨0, [66], 20, [([120], ⟨4, 5, 6⟩)]⟩

/-- A registry already holding one source at the path byte 97. -/
def loadedRegistry : List ArchiveDataSource := [⟨0, [97], 22, []⟩]

/-! Helper lemmas: no stage of the central-directory scan can produce the
duplicate-archive error (that error is raised only by the registry check
at the top of loadArchive). -/

theorem cd64Loop_ne_dup (fuel : Nat) (b : Buf) :
    ∀ pos recordSize data,
      cd64Loop fuel b pos recordSize data ≠ .error .archiveAlreadyLoaded := by
  induction fuel with
  | zero => intro pos rs data; simp [cd64Loop]
  | succ n ih =>
    intro pos rs data
    unfold cd64Loop
    split
    · split
      · simp
      · dsimp only
        split
        · exact ih _ _ _
        · split
          · simp
          · exact ih _ _ _
    · simp

theorem cdLoop_ne_dup (fuel : Nat) (b : Buf) :
    ∀ pos data, cdLoop fuel b pos data ≠ .error .archiveAlreadyLoaded := by
  induction fuel with
  | zero => intro pos data; simp [cdLoop]
  | succ n ih =>
    intro pos data
    unfold cdLoop
    split
    · split
      · simp
      · dsimp only
        split
        · exact ih _ _
        · exact ih _ _
    · simp

theorem cd64ChunkLoop_ne_dup (fuel : Nat) :
    ∀ file sz off pb rb data,
      cd64ChunkLoop fuel file sz off pb rb data ≠
        .error .archiveAlreadyLoaded := by
  induction fuel with
  | zero => intro file sz off pb rb data; simp [cd64ChunkLoop]
  | succ n ih =>
    intro file sz off pb rb data
    unfold cd64ChunkLoop
    split
    · dsimp only
      split
      · rename_i e heq
        intro hc
        injection hc with h2
        subst h2
        exact cd64Loop_ne_dup _ _ _ _ _ heq
      · exact ih _ _ _ _ _ _
    · simp

theorem scanArchive_ne_dup (p : List Nat) (file : Buf) :
    scanArchive p file ≠ .error .archiveAlreadyLoaded := by
  simp only [scanArchive]
  split
  · simp
  · split
    · split
      · simp
      · split
        · rename_i e heq
          intro hc
          injection hc with h2
          subst h2
          exact cd64ChunkLoop_ne_dup _ _ _ _ _ _ _ heq
        · simp
    · split
      · rename_i e heq
        intro hc
        injection hc with h2
        subst h2
        exact cdLoop_ne_dup _ _ _ _ heq
      · simp

/-- Claim C1 (code bug, evaluation at the failing input): on a
central-directory record whose two nominal size fields (offsets 20 and
24) are both the 0xFFFFFFFF sentinel, the scanner stores as the entry's
length the value of the SECOND 8-byte slot of the ZIP64 extra field
(200), not the first (100): the code binds the field at offset 20 -
which its own layout comment documents as the compressed size - to its
first override read, so the stored length (read from offset 24) consumes
the second slot.  On a record with only the local-header offset at the
sentinel, the offset does come from the first slot (77), as claimed. -/
theorem c1_zip64_override_consumes_second_slot :
    parseCD64 bothSizesSentinelRecord = .ok [([98], ⟨5, 50, 200⟩)] ∧
    parseCD64 offsetOnlySentinelRecord = .ok [([98], ⟨5, 77, 9⟩)] :=
  ⟨rfl, rfl⟩

/-- Claim C2 (code bug, evaluation at the failing input): a central
directory whose first record is a directory record straddling the 64 KiB
chunk boundary is parsed successfully by the non-chunked path (one entry,
name byte 97) but makes the chunked path fail with a bad-signature error:
the directory-skip branch advances the position past the end of the
current chunk without the record-completeness check, so the carry-over
buffer is clamped to empty and the next chunk is parsed misaligned,
starting inside the skipped record's comment bytes. -/
theorem c2_chunked_vs_contiguous_divergence :
    parseCD64 straddlingDirectoryCD = .error (.badFileHeaderSignature 0) ∧
    parseCD straddlingDirectoryCD = .ok [([97], ⟨7, 9, 5⟩)] :=
  ⟨rfl, rfl⟩

/-- Claim C3, counterexample: `readFile` verifies the drained length
against the data window read from the LOCAL file header, not against the
entry's recorded uncompressedLength.  Here the central-directory entry
records length 5 while the local header says 3; `readFile` returns the
3-byte buffer (its CRC-32 matches the entry's recorded crc32
1438416925), so a buffer whose length differs from the entry's recorded
uncompressedLength is returned to the caller. -/
theorem c3_counterexample_length_vs_entry :
    readFile (fun l => l) oneArchiveFs [inconsistentSource] [97] =
      .ok (some [1, 2, 3]) ∧
    getEntry inconsistentSource.data [97] = some ⟨1438416925, 0, 5⟩ ∧
    ([1, 2, 3] : List Nat).length ≠ 5 :=
  ⟨rfl, rfl, by decide⟩

/-- Claim C3, amended: `readFile` returns a buffer only if its byte
length equals the RESOLVED WINDOW's uncompressedLength (as read from the
local file header) and its CRC-32 equals the window's crc32; a length
mismatch fails with the truncated-payload error and (with the length
equal) a CRC mismatch fails with the integrity error, both checks before
the buffer is delivered; and the window's crc32 is always the entry's
recorded crc32. -/
theorem c3_readFile_checks_window :
    (∀ inflate fs sources name buf,
        readFile inflate fs sources name = .ok (some buf) →
        ∃ z, getZipDataOffset fs sources name = some z ∧
          buf.length = z.length ∧ crc32 buf = z.crc32) ∧
    (∀ z buffer, buffer.length ≠ z.length →
        readFileFinish z buffer = .error .didNotReadWholeLength) ∧
    (∀ z buffer, buffer.length = z.length → crc32 buffer ≠ z.crc32 →
        readFileFinish z buffer = .error .crc32Mismatch) ∧
    (∀ fs sources name w fi src,
        getZipDataOffset fs sources name = some w →
        findFileInfo sources name = some (fi, src) → w.crc32 = fi.crc32) := by
  refine ⟨?_, ?_, ?_, ?_⟩
  · intro inflate fs sources name buf h
    unfold readFile at h
    cases hz : getZipDataOffset fs sources name with
    | none => rw [hz] at h; exact absurd h (by simp)
    | some z =>
      rw [hz] at h
      dsimp only at h
      refine ⟨z, rfl, ?_⟩
      cases hs : createStreamFromOffset z with
      | none => rw [hs] at h; simp at h
      | some spec =>
        rw [hs] at h
        dsimp only at h
        unfold readFileFinish at h
        by_cases h1 : (drainStream inflate fs spec).length ≠ z.length
        · rw [if_pos h1] at h; simp [Except.map] at h
        · rw [if_neg h1] at h
          by_cases h2 : crc32 (drainStream inflate fs spec) ≠ z.crc32
          · rw [if_pos h2] at h; simp [Except.map] at h
          · rw [if_neg h2] at h
            simp [Except.map] at h
            push_neg at h1 h2
            subst h
            exact ⟨h1, h2⟩
  · intro z buffer h1
    unfold readFileFinish
    rw [if_pos h1]
  · intro z buffer h1 h2
    unfold readFileFinish
    rw [if_neg (by simp [h1]), if_pos h2]
  · intro fs sources name w fi src hw hfind
    unfold getZipDataOffset at hw
    rw [hfind] at hw
    dsimp only at hw
    split at hw
    · injection hw with h
      subst h
      rfl
    · injection hw with h
      subst h
      rfl

/-- Claim C3, witness: the amended theorem applied at the concrete
fixture (successful read, short-buffer rejection, CRC rejection, and the
window/entry crc32 agreement). -/
theorem c3_readFile_checks_window_witness :
    (∃ z, getZipDataOffset oneArchiveFs [inconsistentSource] [97] = some z ∧
      ([1, 2, 3] : List Nat).length = z.length ∧ crc32 [1, 2, 3] = z.crc32) ∧
    readFileFinish inconsistentWindow [1, 2] = .error .didNotReadWholeLength ∧
    readFileFinish inconsistentWindow [9, 9, 9] = .error .crc32Mismatch ∧
    inconsistentWindow.crc32 =
      (⟨1438416925, 0, 5⟩ : ArchiveDataFile).crc32 :=
  ⟨c3_readFile_checks_window.1 (fun l => l) oneArchiveFs
     [inconsistentSource] [97] [1, 2, 3] rfl,
   c3_readFile_checks_window.2.1 inconsistentWindow [1, 2] (by decide),
   c3_readFile_checks_window.2.2.1 inconsistentWindow [9, 9, 9] rfl
     (by decide),
   c3_readFile_checks_window.2.2.2 oneArchiveFs [inconsistentSource] [97]
     inconsistentWindow ⟨1438416925, 0, 5⟩ inconsistentSource rfl rfl⟩

/-- Claim C4, counterexample: a data window with compression method 99
(neither Store nor Deflate) and nonzero length does not fail when its
stream is opened - the raw bounded byte range of the archive is returned
to the caller. -/
theorem c4_counterexample_raw_passthrough :
    createStreamFromOffset ⟨[122], 0, 10, 99, 4, 4⟩ =
      some (.raw [122] 10 13) :=
  rfl

/-- Claim C4, amended: for every nonzero-length data window whose
compression method is not Deflate (8) - including every unsupported
method - opening the payload stream returns the bounded RAW byte range
(the method is treated as Store); no unsupported-compression error
exists in the code. -/
theorem c4_non_deflate_treated_as_store (z : ZipDataOffset)
    (h0 : z.length ≠ 0) (h8 : z.compressionMethod ≠ 8) :
    createStreamFromOffset z =
      some (.raw z.filePath z.offset (z.offset + z.compressedLength - 1)) := by
  unfold createStreamFromOffset
  rw [if_neg h0, if_neg h8]

/-- Claim C4, witness: the amended theorem applied at a window with
compression method 3. -/
theorem c4_non_deflate_treated_as_store_witness :
    createStreamFromOffset ⟨[122], 0, 5, 3, 2, 7⟩ = some (.raw [122] 5 6) :=
  c4_non_deflate_treated_as_store ⟨[122], 0, 5, 3, 2, 7⟩ (by decide)
    (by decide)

/-- Claim C5 (code bug, evaluation at the failing input): a
central-directory record whose 32-bit external-attributes field is
0x40000000 - the Unix directory bit 0o040000 in the high 16 bits - is
NOT skipped: it is indexed by both scanner paths, because the code reads
the field with readUInt16LE, so the shift-by-16 test of the Unix bit is
performed on a 16-bit value and can never fire.  The DOS directory flag
0x10 in the low byte does cause the record to be skipped. -/
theorem c5_unix_dir_bit_indexed :
    parseCD64 unixDirBitRecord = .ok [([99], ⟨6, 13, 4⟩)] ∧
    parseCD unixDirBitRecord = .ok [([99], ⟨6, 13, 4⟩)] ∧
    parseCD64 dosDirFlagRecord = .ok [] ∧
    parseCD dosDirFlagRecord = .ok [] :=
  ⟨rfl, rfl, rfl, rfl⟩

/-- Claim C6: a loaded entry with recorded uncompressedLength 0 resolves
- touching no archive-file bytes (the result is the same for any file
system) - to the window with offset 0, Store method, and zero lengths;
opening a stream on that window yields no stream, and the buffered read
returns the null (zero-byte) result. -/
theorem c6_empty_entry_resolution (fs fs2 : List Nat → Buf)
    (inflate : List Nat → List Nat) (sources : List ArchiveDataSource)
    (name : List Nat) (fi : ArchiveDataFile) (src : ArchiveDataSource)
    (hfind : findFileInfo sources name = some (fi, src))
    (hlen : fi.length = 0) :
    getZipDataOffset fs sources name = some ⟨src.path, fi.crc32, 0, 0, 0, 0⟩ ∧
    getZipDataOffset fs sources name = getZipDataOffset fs2 sources name ∧
    createStreamFromOffset ⟨src.path, fi.crc32, 0, 0, 0, 0⟩ = none ∧
    readFile inflate fs sources name = .ok none := by
  have h1 : getZipDataOffset fs sources name =
      some ⟨src.path, fi.crc32, 0, 0, 0, 0⟩ := by
    unfold getZipDataOffset
    rw [hfind]
    simp [hlen]
  have h2 : getZipDataOffset fs2 sources name =
      some ⟨src.path, fi.crc32, 0, 0, 0, 0⟩ := by
    unfold getZipDataOffset
    rw [hfind]
    simp [hlen]
  have h3 : createStreamFromOffset ⟨src.path, fi.crc32, 0, 0, 0, 0⟩ = none := by
    unfold createStreamFromOffset
    simp
  refine ⟨h1, h1.trans h2.symm, h3, ?_⟩
  unfold readFile
  rw [h1]
  simp only [h3]

/-- Claim C6, witness: the theorem applied at a concrete registry whose
entry for the name byte 97 has recorded length 0. -/
theorem c6_empty_entry_resolution_witness :
    getZipDataOffset oneArchiveFs [emptyEntrySource] [97] =
      some ⟨[122], 3, 0, 0, 0, 0⟩ ∧
    getZipDataOffset oneArchiveFs [emptyEntrySource] [97] =
      getZipDataOffset (fun _ => Buf.ofList []) [emptyEntrySource] [97] ∧
    createStreamFromOffset ⟨[122], 3, 0, 0, 0, 0⟩ = none ∧
    readFile (fun l => l) oneArchiveFs [emptyEntrySource] [97] = .ok none :=
  c6_empty_entry_resolution oneArchiveFs (fun _ => Buf.ofList [])
    (fun l => l) [emptyEntrySource] [97] ⟨3, 11, 0⟩ emptyEntrySource rfl rfl

/-- Claim C7: name resolution walks the loaded sources in load order.  A
name found in the head source is answered from it no matter what is
loaded after; every successful lookup comes from the first source whose
entry map contains the name (all earlier sources lack it); and the
lookup answers not-found exactly when no loaded source contains the
name. -/
theorem c7_resolve_first_source_wins (sources : List ArchiveDataSource)
    (name : List Nat) :
    (∀ s rest fi, getEntry s.data name = some fi →
        findFileInfo (s :: rest) name = some (fi, s)) ∧
    (∀ fi src, findFileInfo sources name = some (fi, src) →
        ∃ pre post, sources = pre ++ src :: post ∧
          getEntry src.data name = some fi ∧
          ∀ s ∈ pre, getEntry s.data name = none) ∧
    ((∀ s ∈ sources, getEntry s.data name = none) ↔
        findFileInfo sources name = none) := by
  refine ⟨?_, ?_, ?_⟩
  · intro s rest fi h
    unfold findFileInfo
    rw [h]
  · induction sources with
    | nil => intro fi src h; simp [findFileInfo] at h
    | cons s rest ih =>
      intro fi src h
      unfold findFileInfo at h
      cases hg : getEntry s.data name with
      | some fi0 =>
        rw [hg] at h
        injection h with h2
        injection h2 with ha hb
        subst ha
        subst hb
        exact ⟨[], rest, rfl, hg, by simp⟩
      | none =>
        rw [hg] at h
        obtain ⟨pre, post, heq, hsome, hnone⟩ := ih fi src h
        refine ⟨s :: pre, post, by simp [heq], hsome, ?_⟩
        intro t ht
        rcases List.mem_cons.mp ht with h2 | h2
        · subst h2; exact hg
        · exact hnone t h2
  · induction sources with
    | nil => simp [findFileInfo]
    | cons s rest ih =>
      constructor
      · intro h
        unfold findFileInfo
        have hs := h s (by simp)
        rw [hs]
        exact ih.mp (fun t ht => h t (by simp [ht]))
      · intro h t ht
        unfold findFileInfo at h
        cases hg : getEntry s.data name with
        | some fi0 => rw [hg] at h; simp at h
        | none =>
          rw [hg] at h
          rcases List.mem_cons.mp ht with h2 | h2
          · subst h2; exact hg
          · exact ih.mpr h t h2

/-- Claim C7, witness: with sources A then B both holding the name byte
120, resolution returns A's entry; a name absent everywhere resolves to
none. -/
theorem c7_resolve_first_source_wins_witness :
    findFileInfo [sourceA, sourceB] [120] = some (⟨1, 2, 3⟩, sourceA) ∧
    findFileInfo [sourceA, sourceB] [121] = none :=
  ⟨(c7_resolve_first_source_wins [sourceA, sourceB] [120]).1 sourceA
     [sourceB] ⟨1, 2, 3⟩ rfl,
   (c7_resolve_first_source_wins [sourceA, sourceB] [121]).2.2.mp
     (by decide)⟩

/-- Claim C8: when some loaded source's path equals the requested path
byte-for-byte, loadArchive fails with the duplicate-archive error and
the registry's source list is returned unchanged (so every previously
loaded index stays queryable); when no source's path is exactly equal
(no canonicalization is performed), the duplicate error cannot be the
outcome. -/
theorem c8_duplicate_path_rejected (sources : List ArchiveDataSource)
    (filePath : List Nat) (cache : Bool) (env : LoadEnv) :
    ((∃ s ∈ sources, s.path = filePath) →
      loadArchive sources filePath cache env =
        (.error .archiveAlreadyLoaded, sources)) ∧
    ((∀ s ∈ sources, s.path ≠ filePath) →
      (loadArchive sources filePath cache env).1 ≠
        .error .archiveAlreadyLoaded) := by
  constructor
  · intro h
    have hany : (sources.any fun s => decide (s.path = filePath)) = true := by
      rw [List.any_eq_true]
      obtain ⟨s, hs, he⟩ := h
      exact ⟨s, hs, by simp [he]⟩
    unfold loadArchive
    rw [if_pos hany]
  · intro h
    have hany : (sources.any fun s => decide (s.path = filePath)) = false := by
      rw [List.any_eq_false]
      intro s hs
      simp [h s hs]
    unfold loadArchive
    rw [if_neg (by simp [hany])]
    dsimp only
    split
    · simp
    · split
      · rename_i e heq
        intro hc
        injection hc with h2
        subst h2
        exact scanArchive_ne_dup _ _ heq
      · split
        · split
          · simp
          · simp
        · simp

/-- Claim C8, witness: loading the already-present path byte 97 fails
with the duplicate error and leaves the registry as it was; loading the
byte-wise different path 46,97 (a non-canonicalized spelling) is not
rejected as a duplicate. -/
theorem c8_duplicate_path_rejected_witness :
    loadArchive loadedRegistry [97] false cacheWriteFailEnv =
      (.error .archiveAlreadyLoaded, loadedRegistry) ∧
    (loadArchive loadedRegistry [46, 97] false cacheWriteFailEnv).1 ≠
      .error .archiveAlreadyLoaded :=
  ⟨(c8_duplicate_path_rejected loadedRegistry [97] false
      cacheWriteFailEnv).1 (by decide),
   (c8_duplicate_path_rejected loadedRegistry [46, 97] false
      cacheWriteFailEnv).2 (by decide)⟩

set_option maxRecDepth 40000 in
/-- Claim C9, counterexample: loading a fresh valid archive with caching
opted in, when the sidecar cache write fails, does NOT succeed - the
write failure propagates out of loadArchive as the call's result - and
the failed load does not leave the registry unchanged: the scanned
source was already pushed before the write. -/
theorem c9_counterexample_cache_write_propagates :
    loadArchive [] [97] true cacheWriteFailEnv =
      (.error .cacheWriteFailed, [⟨0, [97], 22, []⟩]) :=
  rfl

/-- Claim C9, amended: with caching opted in, a cache-write failure IS
propagated to the caller as the load's failure, but it happens after the
scanned source was appended, so the registry retains the new source; a
load that fails during the scan itself (before the push) leaves the
registry's source list unchanged. -/
theorem c9_cache_write_failure_after_push (sources : List ArchiveDataSource)
    (filePath : List Nat) (env : LoadEnv) (arch : ArchiveDataSource)
    (hnodup : ∀ s ∈ sources, s.path ≠ filePath)
    (hmiss : env.cacheLoad = .error ()) :
    (scanArchive filePath env.file = .ok arch → env.cacheWrite = .error () →
      loadArchive sources filePath true env =
        (.error .cacheWriteFailed, sources ++ [arch])) ∧
    (∀ e, scanArchive filePath env.file = .error e →
      loadArchive sources filePath true env = (.error e, sources)) := by
  have hany : (sources.any fun s => decide (s.path = filePath)) = false := by
    rw [List.any_eq_false]
    intro s hs
    simp [hnodup s hs]
  constructor
  · intro hscan hwrite
    simp [loadArchive, hany, hmiss, hscan, hwrite]
  · intro e hscan
    simp [loadArchive, hany, hmiss, hscan]

set_option maxRecDepth 40000 in
/-- Claim C9, witness: the amended theorem applied to an empty registry,
the minimal EOCD-only archive, and a failing cache write. -/
theorem c9_cache_write_failure_after_push_witness :
    loadArchive [] [97] true cacheWriteFailEnv =
      (.error .cacheWriteFailed, [] ++ [⟨0, [97], 22, []⟩]) :=
  (c9_cache_write_failure_after_push [] [97] cacheWriteFailEnv
    ⟨0, [97], 22, []⟩ (by simp) rfl).1 rfl rfl

/-- Claim C10, counterexample: when the 30-byte local-file-header read
fails, getZipDataOffset returns (propagating the error) WITHOUT having
reached the fd.close() call - the traced close flag is false - so the
handle is not closed on every execution path. -/
theorem c10_counterexample_unclosed_fd :
    getZipDataOffsetTraced oneArchiveFs false true
      [inconsistentSource] [97] = (.error .ioError, false) :=
  rfl

/-- Claim C10, amended: the file handle opened for the local-header read
is closed before return whenever the reads succeed (and no handle is
opened at all for missing names or empty entries); but when a read of
the local header fails, the error propagates with the handle left
unclosed. -/
theorem c10_fd_close_on_success_only (fs : List Nat → Buf)
    (sources : List ArchiveDataSource) (name : List Nat) :
    (getZipDataOffsetTraced fs true true sources name).2 = true ∧
    (∀ fi src, findFileInfo sources name = some (fi, src) → fi.length ≠ 0 →
      (getZipDataOffsetTraced fs false true sources name).2 = false) := by
  constructor
  · unfold getZipDataOffsetTraced
    split
    · rfl
    · split
      · rfl
      · split
        · simp_all
        · dsimp only
          split
          · split
            · simp_all
            · rfl
          · rfl
  · intro fi src h hne
    unfold getZipDataOffsetTraced
    rw [h]
    simp [hne]

/-- Claim C10, witness: the amended theorem applied at the concrete
fixture - close flag true when both reads succeed, false when the
local-header read fails on a nonzero-length entry. -/
theorem c10_fd_close_on_success_only_witness :
    (getZipDataOffsetTraced oneArchiveFs true true
      [inconsistentSource] [97]).2 = true ∧
    (getZipDataOffsetTraced oneArchiveFs false true
      [inconsistentSource] [97]).2 = false :=
  ⟨(c10_fd_close_on_success_only oneArchiveFs [inconsistentSource] [97]).1,
   (c10_fd_close_on_success_only oneArchiveFs [inconsistentSource] [97]).2
     ⟨1438416925, 0, 5⟩ inconsistentSource rfl (by decide)⟩

end MultiZipReader
